import Mathlib

/-!
# LS-8 emulator: a shallow embedding of `ls8/cpu.py`

This file translates the execution engine of the LS-8 emulator into Lean:
the CPU state (`ram`, `reg`, `flags`, `pc`, `running`), the ALU, the opcode
handlers, the branch table, and the fetch/decode/dispatch loop of `CPU.run`.

Python list indexing is modelled by `pyIndex`/`pyGet`/`pySet` (negative
indices count from the end, out-of-range access raises IndexError), Python
integers by `Int` (unbounded, with `Int.fmod` for `%`, `Int.fdiv` for
floor division / arithmetic right shift, and two's-complement bitwise
operators), and exceptions by `Except PyExc`.  Printing is modelled by a
`List String` of emitted lines.
-/

namespace LS8

/-- The kinds of Python exception the emulator can raise. -/
inductive PyExc where
  | indexError
  | keyError
  | systemExit
  | valueError
  | other
deriving DecidableEq, Repr

/-- Resolve a Python list index against a list of length `len`:
nonnegative indices below `len` are used directly, negative indices count
from the end, anything else raises IndexError (`none`). -/
def pyIndex (len : Nat) (i : Int) : Option Nat :=
  if 0 ≤ i ∧ i < (len : Int) then some i.toNat
  else if -(len : Int) ≤ i ∧ i < 0 then some (i + len).toNat
  else none

/-- Python list read `l[i]`. -/
def pyGet (l : List Int) (i : Int) : Except PyExc Int :=
  match pyIndex l.length i with
  | some n => .ok (l.getD n 0)
  | none => .error .indexError

/-- Python list write `l[i] = v`. -/
def pySet (l : List Int) (i : Int) (v : Int) : Except PyExc (List Int) :=
  match pyIndex l.length i with
  | some n => .ok (l.set n v)
  | none => .error .indexError

/-- Python `bin(n)`: binary rendering with a `0b` prefix. -/
def pyBin (n : Int) : String :=
  if n < 0 then "-0b" ++ (Nat.toDigits 2 n.natAbs).asString
  else "0b" ++ (Nat.toDigits 2 n.natAbs).asString

/-! ## Opcode constants (module-level constants of `cpu.py`) -/

def ADD : Int := 0b10100000
def ADDI : Int := 0b11001111
def SUB : Int := 0b10100001
def MUL : Int := 0b10100010
def DIV : Int := 0b10100011
def MOD : Int := 0b10100100
def INC : Int := 0b01100101
def DEC : Int := 0b01100110
def CMP : Int := 0b10100111
def AND : Int := 0b10101000
def NOT : Int := 0b01101001
def OR : Int := 0b10101010
def XOR : Int := 0b10101011
def SHL : Int := 0b10101100
def SHR : Int := 0b10101101
def NOP : Int := 0b00000000
def HLT : Int := 0b00000001
def LDI : Int := 0b10000010
def LD : Int := 0b10000011
def ST : Int := 0b10000100
def PUSH : Int := 0b01000101
def POP : Int := 0b01000110
def PRN : Int := 0b01000111
def PRA : Int := 0b01001000
def CALL : Int := 0b01010000
def RET : Int := 0b00010001
def JMP : Int := 0b01010100
def JEQ : Int := 0b01010101
def JNE : Int := 0b01010110

/-- Fixed flag indices from `CPU.__init__`. -/
def flag_lt : Int := 5

def flag_gt : Int := 6

def flag_equal : Int := 7

/-- `self.stack_pointer = 7`. -/
def stack_pointer : Int := 7

/-- The machine state: the mutable fields of class `CPU`.
In `__init__`, `ram` has 255 zero cells, `reg` has 8 cells with
`reg[7] = 0xF4`, `flags` has 8 zero cells, `pc = 0`. -/
structure CPUState where
  ram : List Int
  reg : List Int
  flags : List Int
  pc : Int
  running : Bool
deriving DecidableEq, Repr

/-- A handler returns the lines it printed plus either the next state or the
exception it raised. -/
abbrev HResult := List String × Except PyExc CPUState

/-- Opcode handlers take the three fetched operand bytes and the state. -/
abbrev Handler := Int → Int → Int → CPUState → HResult

/-- `self.reg[i] = v`, returning the updated state. -/
def writeReg (s : CPUState) (i v : Int) : HResult :=
  match pySet s.reg i v with
  | .ok r => ([], .ok { s with reg := r })
  | .error e => ([], .error e)

/-- `self.flags[i] = v`, returning the updated flag vector. -/
def writeFlag (s : CPUState) (i v : Int) : HResult :=
  match pySet s.flags i v with
  | .ok f => ([], .ok { s with flags := f })
  | .error e => ([], .error e)

/-- `CPU.alu`: dispatch on the operation string, reading and writing the
register file exactly as the source does (note that AND/OR/XOR/SHL/SHR
combine `reg[reg_a]` with itself, and that `reg_b` is not read by them). -/
def alu (s : CPUState) (op : String) (reg_a reg_b : Int) : HResult :=
  if op = "ADD" then
    match pyGet s.reg reg_a, pyGet s.reg reg_b with
    | .ok a, .ok b => writeReg s reg_a (a + b)
    | .error e, _ => ([], .error e)
    | _, .error e => ([], .error e)
  else if op = "MUL" then
    match pyGet s.reg reg_a, pyGet s.reg reg_b with
    | .ok a, .ok b => writeReg s reg_a (a * b)
    | .error e, _ => ([], .error e)
    | _, .error e => ([], .error e)
  else if op = "CMP" then
    match pyGet s.reg reg_a, pyGet s.reg reg_b with
    | .ok a, .ok b =>
      if a = b then writeFlag s flag_equal 1
      else if a < b then writeFlag s flag_lt 1
      else if a > b then writeFlag s flag_gt 1
      else
        match pySet s.flags flag_lt 0 with
        | .ok f1 =>
          match pySet f1 flag_gt 0 with
          | .ok f2 =>
            match pySet f2 flag_equal 0 with
            | .ok f3 => ([], .ok { s with flags := f3 })
            | .error e => ([], .error e)
          | .error e => ([], .error e)
        | .error e => ([], .error e)
    | .error e, _ => ([], .error e)
    | _, .error e => ([], .error e)
  else if op = "AND" then
    match pyGet s.reg reg_a with
    | .ok a => writeReg s reg_a (Int.land a a)
    | .error e => ([], .error e)
  else if op = "OR" then
    match pyGet s.reg reg_a with
    | .ok a => writeReg s reg_a (Int.lor a a)
    | .error e => ([], .error e)
  else if op = "XOR" then
    match pyGet s.reg reg_a with
    | .ok a => writeReg s reg_a (Int.xor a a)
    | .error e => ([], .error e)
  else if op = "NOT" then
    match pyGet s.reg reg_a with
    | .ok a => writeReg s reg_a (~~~a)
    | .error e => ([], .error e)
  else if op = "SHL" then
    match pyGet s.reg reg_a with
    | .ok a =>
      if a < 0 then ([], .error .valueError)
      else writeReg s reg_a (a * 2 ^ a.toNat)
    | .error e => ([], .error e)
  else if op = "SHR" then
    match pyGet s.reg reg_a with
    | .ok a =>
      if a < 0 then ([], .error .valueError)
      else writeReg s reg_a (Int.fdiv a (2 ^ a.toNat))
    | .error e => ([], .error e)
  else if op = "MOD" then
    match pyGet s.reg reg_b with
    | .ok b =>
      if b = 0 then (["Error: Divide by Zero"], .error .systemExit)
      else
        match pyGet s.reg reg_a with
        | .ok a => writeReg s reg_a (Int.fmod a b)
        | .error e => ([], .error e)
    | .error e => ([], .error e)
  else ([], .error .other)

/-! ## Opcode handlers -/

def handle_ADD : Handler := fun operand_a operand_b _ s => alu s "ADD" operand_a operand_b

def handle_SUB : Handler := fun _ _ _ s => ([], .ok s)

def handle_HLT : Handler := fun _ _ _ s => ([], .ok { s with running := false })

def handle_LDI : Handler := fun operand_a operand_b _ s => writeReg s operand_a operand_b

def handle_PRN : Handler := fun operand_a _ _ s =>
  match pyGet s.reg operand_a with
  | .ok v => ([toString v], .ok s)
  | .error e => ([], .error e)

def handle_MUL : Handler := fun operand_a operand_b _ s => alu s "MUL" operand_a operand_b

def handle_DIV : Handler := fun _ _ _ s => ([], .ok s)

def handle_MOD : Handler := fun operand_a operand_b _ s => alu s "MOD" operand_a operand_b

def handle_INC : Handler := fun _ _ _ s => ([], .ok s)

def handle_DEC : Handler := fun _ _ _ s => ([], .ok s)

def handle_CMP : Handler := fun operand_a operand_b _ s => alu s "CMP" operand_a operand_b

def handle_AND : Handler := fun operand_a operand_b _ s => alu s "AND" operand_a operand_b

def handle_NOT : Handler := fun operand_a operand_b _ s => alu s "NOT" operand_a operand_b

def handle_OR : Handler := fun operand_a operand_b _ s => alu s "OR" operand_a operand_b

def handle_XOR : Handler := fun operand_a operand_b _ s => alu s "XOR" operand_a operand_b

def handle_SHL : Handler := fun operand_a operand_b _ s => alu s "SHL" operand_a operand_b

def handle_SHR : Handler := fun operand_a operand_b _ s => alu s "SHR" operand_a operand_b

def handle_NOP : Handler := fun _ _ _ s => ([], .ok s)

def handle_LD : Handler := fun _ _ _ s => ([], .ok s)

def handle_ST : Handler := fun _ _ _ s => ([], .ok s)

/-- `handle_PUSH`: decrement `reg[stack_pointer]`, then write
`reg[operand_a]` to `ram[reg[stack_pointer]]`. -/
def handle_PUSH : Handler := fun operand_a _ _ s =>
  match pyGet s.reg stack_pointer with
  | .ok sp =>
    match pySet s.reg stack_pointer (sp - 1) with
    | .ok r1 =>
      let s1 : CPUState := { s with reg := r1 }
      match pyGet s1.reg operand_a with
      | .ok v =>
        match pyGet s1.reg stack_pointer with
        | .ok sp1 =>
          match pySet s1.ram sp1 v with
          | .ok m => ([], .ok { s1 with ram := m })
          | .error e => ([], .error e)
        | .error e => ([], .error e)
      | .error e => ([], .error e)
    | .error e => ([], .error e)
  | .error e => ([], .error e)

/-- `handle_POP`: read `ram[reg[stack_pointer]]` into `reg[operand_a]`,
then increment `reg[stack_pointer]`. -/
def handle_POP : Handler := fun operand_a _ _ s =>
  match pyGet s.reg stack_pointer with
  | .ok sp =>
    match pyGet s.ram sp with
    | .ok v =>
      match pySet s.reg operand_a v with
      | .ok r1 =>
        let s1 : CPUState := { s with reg := r1 }
        match pyGet s1.reg stack_pointer with
        | .ok sp1 =>
          match pySet s1.reg stack_pointer (sp1 + 1) with
          | .ok r2 => ([], .ok { s1 with reg := r2 })
          | .error e => ([], .error e)
        | .error e => ([], .error e)
      | .error e => ([], .error e)
    | .error e => ([], .error e)
  | .error e => ([], .error e)

def handle_PRA : Handler := fun _ _ _ s => ([], .ok s)

/-- `handle_CALL`: push `pc + 2` on the stack, then set `pc` to
`reg[operand_a]` (read after the stack-pointer decrement). -/
def handle_CALL : Handler := fun operand_a _ _ s =>
  let return_addr := s.pc + 2
  match pyGet s.reg stack_pointer with
  | .ok sp =>
    match pySet s.reg stack_pointer (sp - 1) with
    | .ok r1 =>
      let s1 : CPUState := { s with reg := r1 }
      match pyGet s1.reg stack_pointer with
      | .ok sp1 =>
        match pySet s1.ram sp1 return_addr with
        | .ok m =>
          let s2 : CPUState := { s1 with ram := m }
          match pyGet s2.reg operand_a with
          | .ok dest_addr => ([], .ok { s2 with pc := dest_addr })
          | .error e => ([], .error e)
        | .error e => ([], .error e)
      | .error e => ([], .error e)
    | .error e => ([], .error e)
  | .error e => ([], .error e)

/-- `handle_RET`: pop into register 0, then set `pc` to `reg[0]`. -/
def handle_RET : Handler := fun _ o2 o3 s =>
  match handle_POP 0 o2 o3 s with
  | (o, .ok s1) =>
    match pyGet s1.reg 0 with
    | .ok v => (o, .ok { s1 with pc := v })
    | .error e => (o, .error e)
  | (o, .error e) => (o, .error e)

def handle_JMP : Handler := fun register _ _ s =>
  match pyGet s.reg register with
  | .ok dest => ([], .ok { s with pc := dest })
  | .error e => ([], .error e)

def handle_JEQ : Handler := fun register o2 o3 s =>
  match pyGet s.flags flag_equal with
  | .ok f =>
    if f = 1 then handle_JMP register o2 o3 s
    else ([], .ok { s with pc := s.pc + 2 })
  | .error e => ([], .error e)

def handle_JNE : Handler := fun register o2 o3 s =>
  match pyGet s.flags flag_equal with
  | .ok f =>
    if f = 0 then handle_JMP register o2 o3 s
    else ([], .ok { s with pc := s.pc + 2 })
  | .error e => ([], .error e)

/-- `handle_ADDI`: `reg[destination] = reg[register] + data`. -/
def handle_ADDI : Handler := fun destination register data s =>
  match pyGet s.reg register with
  | .ok v => writeReg s destination (v + data)
  | .error e => ([], .error e)

/-- The `self.branchtable[...] = self.handle_...` entries of `__init__`,
in registration order. -/
def branchtable_pairs : List (Int × Handler) :=
  [(ADD, handle_ADD), (ADDI, handle_ADDI), (SUB, handle_SUB), (MUL, handle_MUL),
   (DIV, handle_DIV), (MOD, handle_MOD), (INC, handle_INC), (DEC, handle_DEC),
   (CMP, handle_CMP), (AND, handle_AND), (NOT, handle_NOT), (OR, handle_OR),
   (XOR, handle_XOR), (SHL, handle_SHL), (SHR, handle_SHR), (NOP, handle_NOP),
   (HLT, handle_HLT), (LDI, handle_LDI), (LD, handle_LD), (ST, handle_ST),
   (PUSH, handle_PUSH), (POP, handle_POP), (PRN, handle_PRN), (PRA, handle_PRA),
   (CALL, handle_CALL), (RET, handle_RET), (JMP, handle_JMP), (JEQ, handle_JEQ),
   (JNE, handle_JNE)]

/-- Python dict lookup over key/handler pairs (all keys are distinct). -/
def dictLookup (k : Int) : List (Int × Handler) → Option Handler
  | [] => none
  | (a, h) :: rest => if k = a then some h else dictLookup k rest

/-- `self.branchtable[IR]`: look the opcode up in the dispatch dict. -/
def branchtable (ir : Int) : Option Handler := dictLookup ir branchtable_pairs

/-- Decoder: `inst_len = ((IR & 0b11000000) >> 6) + 1`. -/
def inst_len (ir : Int) : Int := (Int.land ir 0b11000000 >>> (6 : Nat)) + 1

/-- Decoder: `incr_pc = (IR & 0b10000) >> 4` (1 when the instruction sets
the pc itself). -/
def incr_pc (ir : Int) : Int := Int.land ir 0b10000 >>> (4 : Nat)

/-- The opcodes whose handlers set the program counter themselves. -/
def pcSetters : List Int := [CALL, RET, JMP, JEQ, JNE]

/-- The operand fetch of `CPU.run`: read the three bytes following `pc`
(`operand_a`, `operand_b`, `operand_c`).  These reads happen outside the
`try` block, so an out-of-range read is an uncaught crash. -/
def fetchOperands (s : CPUState) : Except PyExc (Int × Int × Int) :=
  match pyGet s.ram (s.pc + 1), pyGet s.ram (s.pc + 2), pyGet s.ram (s.pc + 3) with
  | .ok a, .ok b, .ok c => .ok (a, b, c)
  | .error e, _, _ => .error e
  | _, .error e, _ => .error e
  | _, _, .error e => .error e

/-- The outcome of one iteration of the `while self.running` loop body. -/
inductive StepResult where
  | ok (out : List String) (s : CPUState)
  | exitInvalid (out : List String)
  | fetchCrash
deriving DecidableEq, Repr

/-- One iteration of the loop body of `CPU.run`: fetch the opcode and the
three operand bytes, look the opcode up in the branch table and invoke the
handler inside `try`; any exception (including the SystemExit raised by a
MOD-by-zero, and the KeyError of a missing branch-table entry) is caught by
the bare `except`, which prints the invalid-instruction line and exits the
process.  If the handler returned normally and the opcode is not a
pc-setter, advance `pc` by the decoded instruction length. -/
def step (s : CPUState) : StepResult :=
  match pyGet s.ram s.pc with
  | .error _ => .fetchCrash
  | .ok IR =>
    match fetchOperands s with
    | .error _ => .fetchCrash
    | .ok (operand_a, operand_b, operand_c) =>
      match branchtable IR with
      | none => .exitInvalid ["Invalid instruction " ++ pyBin IR]
      | some f =>
        match f operand_a operand_b operand_c s with
        | (o, .error _) => .exitInvalid (o ++ ["Invalid instruction " ++ pyBin IR])
        | (o, .ok s1) =>
          if incr_pc IR = 1 then .ok o s1
          else .ok o { s1 with pc := s1.pc + inst_len IR }

/-- The outcome of running the machine with a given amount of fuel. -/
inductive RunResult where
  | halted (out : List String) (s : CPUState)
  | exited (out : List String)
  | crashed (out : List String)
  | outOfFuel (out : List String) (s : CPUState)
deriving DecidableEq, Repr

/-- The `while self.running` loop of `CPU.run`, with explicit fuel. -/
def run : Nat → CPUState → List String → RunResult
  | 0, s, out => .outOfFuel out s
  | fuel + 1, s, out =>
    if s.running then
      match step s with
      | .ok o s1 => run fuel s1 (out ++ o)
      | .exitInvalid o => .exited (out ++ o)
      | .fetchCrash => .crashed out
    else .halted out s

/-! ## Basic lemmas about the Python list model -/

theorem pyIndex_some_lt {len : Nat} {i : Int} {n : Nat} (h : pyIndex len i = some n) :
    n < len := by
  unfold pyIndex at h
  split_ifs at h with h1 h2 <;> (injection h with h; omega)

theorem pyIndex_nonneg {len : Nat} {i : Int} (h0 : 0 ≤ i) (h1 : i < (len : Int)) :
    pyIndex len i = some i.toNat := by
  unfold pyIndex
  rw [if_pos ⟨h0, h1⟩]

theorem pyGet_ok_index {l : List Int} {i v : Int} (h : pyGet l i = .ok v) :
    ∃ n, pyIndex l.length i = some n ∧ l.getD n 0 = v := by
  unfold pyGet at h
  cases hx : pyIndex l.length i with
  | none => rw [hx] at h; exact absurd h (by simp)
  | some n =>
    rw [hx] at h
    injection h with h
    exact ⟨n, rfl, h⟩

theorem pyGet_eq_of_index {l : List Int} {i : Int} {n : Nat}
    (h : pyIndex l.length i = some n) : pyGet l i = .ok (l.getD n 0) := by
  unfold pyGet
  rw [h]

theorem pySet_eq_of_index {l : List Int} {i : Int} {n : Nat}
    (h : pyIndex l.length i = some n) (v : Int) : pySet l i v = .ok (l.set n v) := by
  unfold pySet
  rw [h]

theorem pyIndex_length_set (l : List Int) (n : Nat) (v : Int) (i : Int) :
    pyIndex (l.set n v).length i = pyIndex l.length i := by
  rw [List.length_set]

theorem pyGet_set_same {l : List Int} {i : Int} {n : Nat}
    (h : pyIndex l.length i = some n) (v : Int) :
    pyGet (l.set n v) i = .ok v := by
  unfold pyGet
  rw [pyIndex_length_set, h]
  have hn := pyIndex_some_lt h
  simp [List.getD_eq_getElem?_getD, List.getElem?_set_self, hn]

theorem pyGet_set_other {l : List Int} {j : Int} {m : Nat} (n : Nat)
    (hj : pyIndex l.length j = some m) (hne : m ≠ n) (v : Int) :
    pyGet (l.set n v) j = pyGet l j := by
  unfold pyGet
  rw [pyIndex_length_set, hj]
  simp [List.getD_eq_getElem?_getD, List.getElem?_set_ne (Ne.symm hne)]

/-! ## Handler characterizations -/

theorem writeReg_ok {s t : CPUState} {i v : Int} {o : List String}
    (h : writeReg s i v = (o, .ok t)) :
    ∃ r, pySet s.reg i v = .ok r ∧ o = [] ∧ t = { s with reg := r } := by
  unfold writeReg at h
  cases hx : pySet s.reg i v with
  | ok r =>
    rw [hx] at h
    simp only [Prod.mk.injEq] at h
    obtain ⟨ho, ht⟩ := h
    injection ht with ht
    exact ⟨r, rfl, ho.symm, ht.symm⟩
  | error e =>
    rw [hx] at h
    exact absurd h (by simp)

theorem writeFlag_ok {s t : CPUState} {i v : Int} {o : List String}
    (h : writeFlag s i v = (o, .ok t)) :
    ∃ f, pySet s.flags i v = .ok f ∧ o = [] ∧ t = { s with flags := f } := by
  unfold writeFlag at h
  cases hx : pySet s.flags i v with
  | ok f =>
    rw [hx] at h
    simp only [Prod.mk.injEq] at h
    obtain ⟨ho, ht⟩ := h
    injection ht with ht
    exact ⟨f, rfl, ho.symm, ht.symm⟩
  | error e =>
    rw [hx] at h
    exact absurd h (by simp)

/-! ## Unfolding lemmas for `alu` at each operation string -/

theorem alu_ADD_def (s : CPUState) (a b : Int) :
    alu s "ADD" a b = (match pyGet s.reg a, pyGet s.reg b with
      | .ok va, .ok vb => writeReg s a (va + vb)
      | .error e, _ => ([], .error e)
      | _, .error e => ([], .error e)) := rfl

theorem alu_MUL_def (s : CPUState) (a b : Int) :
    alu s "MUL" a b = (match pyGet s.reg a, pyGet s.reg b with
      | .ok va, .ok vb => writeReg s a (va * vb)
      | .error e, _ => ([], .error e)
      | _, .error e => ([], .error e)) := rfl

theorem alu_CMP_def (s : CPUState) (a b : Int) :
    alu s "CMP" a b = (match pyGet s.reg a, pyGet s.reg b with
      | .ok va, .ok vb =>
        if va = vb then writeFlag s flag_equal 1
        else if va < vb then writeFlag s flag_lt 1
        else if va > vb then writeFlag s flag_gt 1
        else
          match pySet s.flags flag_lt 0 with
          | .ok f1 =>
            match pySet f1 flag_gt 0 with
            | .ok f2 =>
              match pySet f2 flag_equal 0 with
              | .ok f3 => ([], .ok { s with flags := f3 })
              | .error e => ([], .error e)
            | .error e => ([], .error e)
          | .error e => ([], .error e)
      | .error e, _ => ([], .error e)
      | _, .error e => ([], .error e)) := rfl

theorem alu_AND_def (s : CPUState) (a b : Int) :
    alu s "AND" a b = (match pyGet s.reg a with
      | .ok va => writeReg s a (Int.land va va)
      | .error e => ([], .error e)) := rfl

theorem alu_OR_def (s : CPUState) (a b : Int) :
    alu s "OR" a b = (match pyGet s.reg a with
      | .ok va => writeReg s a (Int.lor va va)
      | .error e => ([], .error e)) := rfl

theorem alu_XOR_def (s : CPUState) (a b : Int) :
    alu s "XOR" a b = (match pyGet s.reg a with
      | .ok va => writeReg s a (Int.xor va va)
      | .error e => ([], .error e)) := rfl

theorem alu_NOT_def (s : CPUState) (a b : Int) :
    alu s "NOT" a b = (match pyGet s.reg a with
      | .ok va => writeReg s a (~~~va)
      | .error e => ([], .error e)) := rfl

theorem alu_SHL_def (s : CPUState) (a b : Int) :
    alu s "SHL" a b = (match pyGet s.reg a with
      | .ok va =>
        if va < 0 then ([], .error .valueError)
        else writeReg s a (va * 2 ^ va.toNat)
      | .error e => ([], .error e)) := rfl

theorem alu_SHR_def (s : CPUState) (a b : Int) :
    alu s "SHR" a b = (match pyGet s.reg a with
      | .ok va =>
        if va < 0 then ([], .error .valueError)
        else writeReg s a (Int.fdiv va (2 ^ va.toNat))
      | .error e => ([], .error e)) := rfl

theorem alu_MOD_def (s : CPUState) (a b : Int) :
    alu s "MOD" a b = (match pyGet s.reg b with
      | .ok vb =>
        if vb = 0 then (["Error: Divide by Zero"], .error .systemExit)
        else
          match pyGet s.reg a with
          | .ok va => writeReg s a (Int.fmod va vb)
          | .error e => ([], .error e)
      | .error e => ([], .error e)) := rfl

/-! ## Program-counter preservation for the non-control handlers -/

theorem handle_ADD_pc {a b c : Int} {s t : CPUState} {o : List String}
    (h : handle_ADD a b c s = (o, .ok t)) : t.pc = s.pc := by
  unfold handle_ADD at h
  rw [alu_ADD_def] at h
  repeat' split at h
  all_goals first
    | (obtain ⟨r, _, _, ht⟩ := writeReg_ok h; subst ht; rfl)
    | (exact absurd h (by simp))

theorem handle_MUL_pc {a b c : Int} {s t : CPUState} {o : List String}
    (h : handle_MUL a b c s = (o, .ok t)) : t.pc = s.pc := by
  unfold handle_MUL at h
  rw [alu_MUL_def] at h
  repeat' split at h
  all_goals first
    | (obtain ⟨r, _, _, ht⟩ := writeReg_ok h; subst ht; rfl)
    | (exact absurd h (by simp))

theorem handle_CMP_pc {a b c : Int} {s t : CPUState} {o : List String}
    (h : handle_CMP a b c s = (o, .ok t)) : t.pc = s.pc := by
  unfold handle_CMP at h
  rw [alu_CMP_def] at h
  repeat' split at h
  all_goals first
    | (obtain ⟨f, _, _, ht⟩ := writeFlag_ok h; subst ht; rfl)
    | (simp only [Prod.mk.injEq] at h; obtain ⟨-, h2⟩ := h; injection h2 with h2;
       subst h2; rfl)
    | (exact absurd h (by simp))

theorem handle_AND_pc {a b c : Int} {s t : CPUState} {o : List String}
    (h : handle_AND a b c s = (o, .ok t)) : t.pc = s.pc := by
  unfold handle_AND at h
  rw [alu_AND_def] at h
  repeat' split at h
  all_goals first
    | (obtain ⟨r, _, _, ht⟩ := writeReg_ok h; subst ht; rfl)
    | (exact absurd h (by simp))

theorem handle_OR_pc {a b c : Int} {s t : CPUState} {o : List String}
    (h : handle_OR a b c s = (o, .ok t)) : t.pc = s.pc := by
  unfold handle_OR at h
  rw [alu_OR_def] at h
  repeat' split at h
  all_goals first
    | (obtain ⟨r, _, _, ht⟩ := writeReg_ok h; subst ht; rfl)
    | (exact absurd h (by simp))

theorem handle_XOR_pc {a b c : Int} {s t : CPUState} {o : List String}
    (h : handle_XOR a b c s = (o, .ok t)) : t.pc = s.pc := by
  unfold handle_XOR at h
  rw [alu_XOR_def] at h
  repeat' split at h
  all_goals first
    | (obtain ⟨r, _, _, ht⟩ := writeReg_ok h; subst ht; rfl)
    | (exact absurd h (by simp))

theorem handle_NOT_pc {a b c : Int} {s t : CPUState} {o : List String}
    (h : handle_NOT a b c s = (o, .ok t)) : t.pc = s.pc := by
  unfold handle_NOT at h
  rw [alu_NOT_def] at h
  repeat' split at h
  all_goals first
    | (obtain ⟨r, _, _, ht⟩ := writeReg_ok h; subst ht; rfl)
    | (exact absurd h (by simp))

theorem handle_SHL_pc {a b c : Int} {s t : CPUState} {o : List String}
    (h : handle_SHL a b c s = (o, .ok t)) : t.pc = s.pc := by
  unfold handle_SHL at h
  rw [alu_SHL_def] at h
  repeat' split at h
  all_goals first
    | (obtain ⟨r, _, _, ht⟩ := writeReg_ok h; subst ht; rfl)
    | (exact absurd h (by simp))

theorem handle_SHR_pc {a b c : Int} {s t : CPUState} {o : List String}
    (h : handle_SHR a b c s = (o, .ok t)) : t.pc = s.pc := by
  unfold handle_SHR at h
  rw [alu_SHR_def] at h
  repeat' split at h
  all_goals first
    | (obtain ⟨r, _, _, ht⟩ := writeReg_ok h; subst ht; rfl)
    | (exact absurd h (by simp))

theorem handle_MOD_pc {a b c : Int} {s t : CPUState} {o : List String}
    (h : handle_MOD a b c s = (o, .ok t)) : t.pc = s.pc := by
  unfold handle_MOD at h
  rw [alu_MOD_def] at h
  repeat' split at h
  all_goals first
    | (obtain ⟨r, _, _, ht⟩ := writeReg_ok h; subst ht; rfl)
    | (exact absurd h (by simp))

theorem handle_LDI_pc {a b c : Int} {s t : CPUState} {o : List String}
    (h : handle_LDI a b c s = (o, .ok t)) : t.pc = s.pc := by
  unfold handle_LDI at h
  obtain ⟨r, _, _, ht⟩ := writeReg_ok h
  subst ht
  rfl

theorem handle_ADDI_pc {a b c : Int} {s t : CPUState} {o : List String}
    (h : handle_ADDI a b c s = (o, .ok t)) : t.pc = s.pc := by
  unfold handle_ADDI at h
  repeat' split at h
  all_goals first
    | (obtain ⟨r, _, _, ht⟩ := writeReg_ok h; subst ht; rfl)
    | (exact absurd h (by simp))

theorem handle_PRN_pc {a b c : Int} {s t : CPUState} {o : List String}
    (h : handle_PRN a b c s = (o, .ok t)) : t.pc = s.pc := by
  unfold handle_PRN at h
  repeat' split at h
  all_goals first
    | (simp only [Prod.mk.injEq] at h; obtain ⟨-, h2⟩ := h; injection h2 with h2;
       subst h2; rfl)
    | (exact absurd h (by simp))

theorem handle_PUSH_pc {a b c : Int} {s t : CPUState} {o : List String}
    (h : handle_PUSH a b c s = (o, .ok t)) : t.pc = s.pc := by
  unfold handle_PUSH at h
  dsimp only at h
  repeat' split at h
  all_goals first
    | (simp only [Prod.mk.injEq] at h; obtain ⟨-, h2⟩ := h; injection h2 with h2;
       subst h2; rfl)
    | (exact absurd h (by simp))

theorem handle_POP_pc {a b c : Int} {s t : CPUState} {o : List String}
    (h : handle_POP a b c s = (o, .ok t)) : t.pc = s.pc := by
  unfold handle_POP at h
  dsimp only at h
  repeat' split at h
  all_goals first
    | (simp only [Prod.mk.injEq] at h; obtain ⟨-, h2⟩ := h; injection h2 with h2;
       subst h2; rfl)
    | (exact absurd h (by simp))

theorem handle_HLT_pc {a b c : Int} {s t : CPUState} {o : List String}
    (h : handle_HLT a b c s = (o, .ok t)) : t.pc = s.pc := by
  unfold handle_HLT at h
  simp only [Prod.mk.injEq] at h
  obtain ⟨-, h2⟩ := h
  injection h2 with h2
  subst h2
  rfl

theorem handle_SUB_pc {a b c : Int} {s t : CPUState} {o : List String}
    (h : handle_SUB a b c s = (o, .ok t)) : t.pc = s.pc := by
  unfold handle_SUB at h
  simp only [Prod.mk.injEq] at h
  obtain ⟨-, h2⟩ := h
  injection h2 with h2
  subst h2
  rfl

theorem handle_DIV_pc {a b c : Int} {s t : CPUState} {o : List String}
    (h : handle_DIV a b c s = (o, .ok t)) : t.pc = s.pc := by
  unfold handle_DIV at h
  simp only [Prod.mk.injEq] at h
  obtain ⟨-, h2⟩ := h
  injection h2 with h2
  subst h2
  rfl

theorem handle_INC_pc {a b c : Int} {s t : CPUState} {o : List String}
    (h : handle_INC a b c s = (o, .ok t)) : t.pc = s.pc := by
  unfold handle_INC at h
  simp only [Prod.mk.injEq] at h
  obtain ⟨-, h2⟩ := h
  injection h2 with h2
  subst h2
  rfl

theorem handle_DEC_pc {a b c : Int} {s t : CPUState} {o : List String}
    (h : handle_DEC a b c s = (o, .ok t)) : t.pc = s.pc := by
  unfold handle_DEC at h
  simp only [Prod.mk.injEq] at h
  obtain ⟨-, h2⟩ := h
  injection h2 with h2
  subst h2
  rfl

theorem handle_NOP_pc {a b c : Int} {s t : CPUState} {o : List String}
    (h : handle_NOP a b c s = (o, .ok t)) : t.pc = s.pc := by
  unfold handle_NOP at h
  simp only [Prod.mk.injEq] at h
  obtain ⟨-, h2⟩ := h
  injection h2 with h2
  subst h2
  rfl

theorem handle_LD_pc {a b c : Int} {s t : CPUState} {o : List String}
    (h : handle_LD a b c s = (o, .ok t)) : t.pc = s.pc := by
  unfold handle_LD at h
  simp only [Prod.mk.injEq] at h
  obtain ⟨-, h2⟩ := h
  injection h2 with h2
  subst h2
  rfl

theorem handle_ST_pc {a b c : Int} {s t : CPUState} {o : List String}
    (h : handle_ST a b c s = (o, .ok t)) : t.pc = s.pc := by
  unfold handle_ST at h
  simp only [Prod.mk.injEq] at h
  obtain ⟨-, h2⟩ := h
  injection h2 with h2
  subst h2
  rfl

theorem handle_PRA_pc {a b c : Int} {s t : CPUState} {o : List String}
    (h : handle_PRA a b c s = (o, .ok t)) : t.pc = s.pc := by
  unfold handle_PRA at h
  simp only [Prod.mk.injEq] at h
  obtain ⟨-, h2⟩ := h
  injection h2 with h2
  subst h2
  rfl

/-- A successful dict lookup finds one of the stored pairs. -/
theorem dictLookup_mem {k : Int} {v : Handler} :
    ∀ {l : List (Int × Handler)}, dictLookup k l = some v → (k, v) ∈ l := by
  intro l
  induction l with
  | nil =>
    intro h
    exact absurd h (by simp [dictLookup])
  | cons p rest ih =>
    intro h
    obtain ⟨a, hd⟩ := p
    unfold dictLookup at h
    split_ifs at h with he
    · injection h with h
      subst he
      subst h
      exact List.mem_cons_self _ _
    · exact List.mem_cons_of_mem _ (ih h)

/-- The pc-modify bit agrees with membership in `pcSetters` on every stored
key (a boolean check over the dispatch pairs). -/
def pairsBitOk (l : List (Int × Handler)) : Bool :=
  l.all fun p => decide (incr_pc p.1 = 1) == decide (p.1 ∈ pcSetters)

theorem pairs_bit_ok : pairsBitOk branchtable_pairs = true := by decide

theorem pairsBitOk_mem {l : List (Int × Handler)} (hall : pairsBitOk l = true)
    {k : Int} {v : Handler} (hm : (k, v) ∈ l) : incr_pc k = 1 ↔ k ∈ pcSetters := by
  unfold pairsBitOk at hall
  rw [List.all_eq_true] at hall
  have hb := hall _ hm
  have h2 : decide (incr_pc k = 1) = decide (k ∈ pcSetters) := by
    simpa using hb
  exact decide_eq_decide.mp h2

/-- Among the registered opcodes, the decoded pc-modify bit is set exactly
for `CALL`, `RET`, `JMP`, `JEQ`, `JNE`. -/
theorem branchtable_incr_pc_iff {ir : Int} {f : Handler} (hf : branchtable ir = some f) :
    incr_pc ir = 1 ↔ ir ∈ pcSetters :=
  pairsBitOk_mem pairs_bit_ok (dictLookup_mem hf)

/-- A handler preserves the pc unless its key is a pc-setter, stated as a
predicate over the stored pairs. -/
def PairsPcOk : List (Int × Handler) → Prop
  | [] => True
  | (k, h) :: rest =>
    (k ∉ pcSetters → ∀ {a b c : Int} {s t : CPUState} {o : List String},
      h a b c s = (o, .ok t) → t.pc = s.pc) ∧ PairsPcOk rest

theorem pairs_pc_ok : PairsPcOk branchtable_pairs := by
  unfold branchtable_pairs PairsPcOk
  refine ⟨fun hns a b c s t o h => handle_ADD_pc h, ?_⟩
  refine ⟨fun hns a b c s t o h => handle_ADDI_pc h, ?_⟩
  refine ⟨fun hns a b c s t o h => handle_SUB_pc h, ?_⟩
  refine ⟨fun hns a b c s t o h => handle_MUL_pc h, ?_⟩
  refine ⟨fun hns a b c s t o h => handle_DIV_pc h, ?_⟩
  refine ⟨fun hns a b c s t o h => handle_MOD_pc h, ?_⟩
  refine ⟨fun hns a b c s t o h => handle_INC_pc h, ?_⟩
  refine ⟨fun hns a b c s t o h => handle_DEC_pc h, ?_⟩
  refine ⟨fun hns a b c s t o h => handle_CMP_pc h, ?_⟩
  refine ⟨fun hns a b c s t o h => handle_AND_pc h, ?_⟩
  refine ⟨fun hns a b c s t o h => handle_NOT_pc h, ?_⟩
  refine ⟨fun hns a b c s t o h => handle_OR_pc h, ?_⟩
  refine ⟨fun hns a b c s t o h => handle_XOR_pc h, ?_⟩
  refine ⟨fun hns a b c s t o h => handle_SHL_pc h, ?_⟩
  refine ⟨fun hns a b c s t o h => handle_SHR_pc h, ?_⟩
  refine ⟨fun hns a b c s t o h => handle_NOP_pc h, ?_⟩
  refine ⟨fun hns a b c s t o h => handle_HLT_pc h, ?_⟩
  refine ⟨fun hns a b c s t o h => handle_LDI_pc h, ?_⟩
  refine ⟨fun hns a b c s t o h => handle_LD_pc h, ?_⟩
  refine ⟨fun hns a b c s t o h => handle_ST_pc h, ?_⟩
  refine ⟨fun hns a b c s t o h => handle_PUSH_pc h, ?_⟩
  refine ⟨fun hns a b c s t o h => handle_POP_pc h, ?_⟩
  refine ⟨fun hns a b c s t o h => handle_PRN_pc h, ?_⟩
  refine ⟨fun hns a b c s t o h => handle_PRA_pc h, ?_⟩
  refine ⟨fun hns => absurd (by decide) hns, ?_⟩
  refine ⟨fun hns => absurd (by decide) hns, ?_⟩
  refine ⟨fun hns => absurd (by decide) hns, ?_⟩
  refine ⟨fun hns => absurd (by decide) hns, ?_⟩
  exact ⟨fun hns => absurd (by decide) hns, trivial⟩

theorem dictLookup_pc_ok : ∀ {l : List (Int × Handler)}, PairsPcOk l →
    ∀ {k : Int} {v : Handler}, dictLookup k l = some v → k ∉ pcSetters →
    ∀ {a b c : Int} {s t : CPUState} {o : List String},
      v a b c s = (o, .ok t) → t.pc = s.pc := by
  intro l
  induction l with
  | nil =>
    intro _ k v h
    exact absurd h (by simp [dictLookup])
  | cons p rest ih =>
    intro hok k v h hns
    obtain ⟨a0, h0⟩ := p
    unfold dictLookup at h
    split_ifs at h with he
    · injection h with h
      subst h
      subst he
      exact hok.1 hns
    · exact ih hok.2 h hns

/-- Every registered handler whose opcode is not a pc-setter leaves the
program counter unchanged. -/
theorem branchtable_pc_preserved {ir : Int} {f : Handler} (hf : branchtable ir = some f)
    (hns : ir ∉ pcSetters) {a b c : Int} {s t : CPUState} {o : List String}
    (h : f a b c s = (o, .ok t)) : t.pc = s.pc :=
  dictLookup_pc_ok pairs_pc_ok hf hns h

theorem pyIndex_eq_of_nonneg {len : Nat} {i : Int} {n : Nat} (h0 : 0 ≤ i)
    (h : pyIndex len i = some n) : (n : Int) = i ∧ i < (len : Int) := by
  unfold pyIndex at h
  split_ifs at h with h1 h2
  · injection h with h
    omega
  · omega

theorem getD_set_eq {l : List Int} {n : Nat} (h : n < l.length) (v : Int) :
    (l.set n v).getD n 0 = v := by
  simp [List.getD_eq_getElem?_getD, List.getElem?_set_self, h]

theorem getD_set_ne {l : List Int} {n m : Nat} (h : m ≠ n) (v : Int) :
    (l.set n v).getD m 0 = l.getD m 0 := by
  simp [List.getD_eq_getElem?_getD, List.getElem?_set_ne (Ne.symm h)]

/-- `pyGet l 7 = .ok sp` pins the resolved index to 7 and forces
`7 < l.length`. -/
theorem reg_sp_index {l : List Int} {sp : Int} (h : pyGet l stack_pointer = .ok sp) :
    pyIndex l.length stack_pointer = some 7 ∧ 7 < l.length ∧ l.getD 7 0 = sp := by
  obtain ⟨n, hn, hval⟩ := pyGet_ok_index h
  obtain ⟨hn7, hlt⟩ := pyIndex_eq_of_nonneg (by decide) hn
  unfold stack_pointer at hn7 hlt
  have hn7a : n = 7 := by omega
  subst hn7a
  exact ⟨hn, by omega, hval⟩

/-- `handle_PUSH` under in-range indices: decrement the stack pointer and
store the (possibly just-decremented) register value below it. -/
theorem handle_PUSH_eq {x sp : Int} {n m : Nat} {s : CPUState} (o2 o3 : Int)
    (hsp : pyGet s.reg stack_pointer = .ok sp)
    (hx : pyIndex s.reg.length x = some n)
    (hram : pyIndex s.ram.length (sp - 1) = some m) :
    handle_PUSH x o2 o3 s =
      ([], .ok { s with
        reg := s.reg.set 7 (sp - 1),
        ram := s.ram.set m ((s.reg.set 7 (sp - 1)).getD n 0) }) := by
  obtain ⟨hidx7, hlt7, -⟩ := reg_sp_index hsp
  unfold handle_PUSH
  rw [hsp]
  dsimp only
  rw [pySet_eq_of_index hidx7]
  dsimp only
  have hxb : pyIndex (s.reg.set 7 (sp - 1)).length x = some n := by
    rw [pyIndex_length_set]
    exact hx
  rw [pyGet_eq_of_index hxb]
  dsimp only
  rw [pyGet_set_same hidx7]
  dsimp only
  rw [pySet_eq_of_index hram]

/-- `handle_POP` under in-range indices: load the top of stack into the
operand register, then increment the stack pointer (a pop into register 7
increments the just-loaded value). -/
theorem handle_POP_eq {x sp v : Int} {n : Nat} {s : CPUState} (o2 o3 : Int)
    (hsp : pyGet s.reg stack_pointer = .ok sp)
    (hv : pyGet s.ram sp = .ok v)
    (hx : pyIndex s.reg.length x = some n) :
    handle_POP x o2 o3 s =
      ([], .ok { s with
        reg := (s.reg.set n v).set 7 ((s.reg.set n v).getD 7 0 + 1) }) := by
  obtain ⟨hidx7, hlt7, -⟩ := reg_sp_index hsp
  unfold handle_POP
  rw [hsp]
  dsimp only
  rw [hv]
  dsimp only
  rw [pySet_eq_of_index hx]
  dsimp only
  have hidx7b : pyIndex (s.reg.set n v).length stack_pointer = some 7 := by
    rw [pyIndex_length_set]
    exact hidx7
  rw [pyGet_eq_of_index hidx7b]
  dsimp only
  rw [pySet_eq_of_index hidx7b ((s.reg.set n v).getD 7 0 + 1)]

/-- `handle_CALL` under in-range indices: push `pc + 2`, then jump to the
(post-decrement) content of the operand register. -/
theorem handle_CALL_eq {x sp : Int} {n m : Nat} {s : CPUState} (o2 o3 : Int)
    (hsp : pyGet s.reg stack_pointer = .ok sp)
    (hx : pyIndex s.reg.length x = some n)
    (hram : pyIndex s.ram.length (sp - 1) = some m) :
    handle_CALL x o2 o3 s =
      ([], .ok { s with
        ram := s.ram.set m (s.pc + 2),
        reg := s.reg.set 7 (sp - 1),
        pc := (s.reg.set 7 (sp - 1)).getD n 0 }) := by
  obtain ⟨hidx7, hlt7, -⟩ := reg_sp_index hsp
  unfold handle_CALL
  dsimp only
  rw [hsp]
  dsimp only
  rw [pySet_eq_of_index hidx7]
  dsimp only
  rw [pyGet_set_same hidx7]
  dsimp only
  rw [pySet_eq_of_index hram]
  dsimp only
  have hxb : pyIndex (s.reg.set 7 (sp - 1)).length x = some n := by
    rw [pyIndex_length_set]
    exact hx
  rw [pyGet_eq_of_index hxb]

/-- `handle_RET` under in-range indices: pop the return address into
register 0 and set the program counter to it. -/
theorem handle_RET_eq {sp v : Int} {s : CPUState} (x o2 o3 : Int)
    (hsp : pyGet s.reg stack_pointer = .ok sp)
    (hv : pyGet s.ram sp = .ok v) :
    handle_RET x o2 o3 s =
      ([], .ok { s with
        reg := (s.reg.set 0 v).set 7 ((s.reg.set 0 v).getD 7 0 + 1),
        pc := v }) := by
  obtain ⟨hidx7, hlt7, -⟩ := reg_sp_index hsp
  have hidx0 : pyIndex s.reg.length 0 = some 0 := by
    rw [pyIndex_nonneg (by decide) (by omega)]
    rfl
  unfold handle_RET
  rw [handle_POP_eq o2 o3 hsp hv hidx0]
  dsimp only
  have hidx0b : pyIndex
      ((s.reg.set 0 v).set 7 ((s.reg.set 0 v).getD 7 0 + 1)).length (0 : Int) = some 0 := by
    rw [pyIndex_length_set, pyIndex_length_set]
    exact hidx0
  rw [pyGet_eq_of_index hidx0b]
  dsimp only
  rw [getD_set_ne (by decide) ((s.reg.set 0 v).getD 7 0 + 1),
    getD_set_eq (by omega) v]

/-- When the opcode and operand fetches succeed, one loop iteration is the
dispatch-and-advance of the fetched opcode. -/
theorem step_eq_of_fetch {s : CPUState} {IR oa ob oc : Int}
    (hIR : pyGet s.ram s.pc = .ok IR)
    (hops : fetchOperands s = .ok (oa, ob, oc)) :
    step s = (match branchtable IR with
      | none => .exitInvalid ["Invalid instruction " ++ pyBin IR]
      | some f =>
        match f oa ob oc s with
        | (o, .error _) => .exitInvalid (o ++ ["Invalid instruction " ++ pyBin IR])
        | (o, .ok s1) =>
          if incr_pc IR = 1 then .ok o s1
          else .ok o { s1 with pc := s1.pc + inst_len IR }) := by
  unfold step
  rw [hIR, hops]

/-- C1: in a cycle that dispatches a defined opcode and neither halts nor
hits a fatal error, the program counter advances by the decoded instruction
length `((opcode >> 6 & 0b11) + 1)`, unless the opcode is one of
CALL, RET, JMP, JEQ, JNE, in which case the new program counter is exactly
the address written by that opcode's handler. -/
theorem C1_pc_advance {s s1 : CPUState} {o : List String} {IR oa ob oc : Int}
    (hIR : pyGet s.ram s.pc = .ok IR)
    (hops : fetchOperands s = .ok (oa, ob, oc))
    (hstep : step s = .ok o s1)
    (hrun : s1.running = true) :
    (IR ∉ pcSetters ∧ s1.pc = s.pc + inst_len IR) ∨
    (IR ∈ pcSetters ∧ ∃ f t, branchtable IR = some f ∧
      f oa ob oc s = (o, .ok t) ∧ s1.pc = t.pc) := by
  rw [step_eq_of_fetch hIR hops] at hstep
  cases hbt : branchtable IR with
  | none =>
    rw [hbt] at hstep
    try dsimp only at hstep
    exact absurd hstep (by simp)
  | some f =>
    rw [hbt] at hstep
    try dsimp only at hstep
    cases hres : f oa ob oc s with
    | mk o1 r =>
      rw [hres] at hstep
      try dsimp only at hstep
      cases r with
      | error e =>
        try dsimp only at hstep
        exact absurd hstep (by simp)
      | ok t =>
        try dsimp only at hstep
        by_cases hbit : incr_pc IR = 1
        · rw [if_pos hbit] at hstep
          injection hstep with h1 h2
          subst h1
          subst h2
          exact .inr ⟨(branchtable_incr_pc_iff hbt).mp hbit, f, t, rfl, hres, rfl⟩
        · rw [if_neg hbit] at hstep
          injection hstep with h1 h2
          subst h1
          subst h2
          have hmem : IR ∉ pcSetters := fun hm => hbit ((branchtable_incr_pc_iff hbt).mpr hm)
          have hpc : t.pc = s.pc := branchtable_pc_preserved hbt hmem hres
          exact .inl ⟨hmem, by rw [show ({ t with pc := t.pc + inst_len IR } : CPUState).pc
            = t.pc + inst_len IR from rfl, hpc]⟩

/-- A concrete state for the C1 witness: `LDI R0, 5` at address 0. -/
def W1 : CPUState :=
  { ram := [LDI, 0, 5, 0], reg := [0, 0, 0, 0, 0, 0, 0, 0xF4],
    flags := [0, 0, 0, 0, 0, 0, 0, 0], pc := 0, running := true }

/-- The state after one cycle on `W1`. -/
def W1s : CPUState :=
  { ram := [LDI, 0, 5, 0], reg := [5, 0, 0, 0, 0, 0, 0, 0xF4],
    flags := [0, 0, 0, 0, 0, 0, 0, 0], pc := 0 + 3, running := true }

/-- Witness for C1 at the concrete cycle `LDI R0, 5`. -/
theorem C1_pc_advance_witness :
    (LDI ∉ pcSetters ∧ W1s.pc = W1.pc + inst_len LDI) ∨
    (LDI ∈ pcSetters ∧ ∃ f t, branchtable LDI = some f ∧
      f 0 5 0 W1 = ([], .ok t) ∧ W1s.pc = t.pc) :=
  C1_pc_advance (by rfl) (by rfl) (by rfl) (by rfl)

/-- C6: PUSH then POP on the same register, with the touched stack slot in
bounds, restores the register and the stack pointer to their original
values. -/
theorem C6_push_pop_roundtrip {r sp v0 : Int} {m : Nat} {s : CPUState}
    (hr : pyGet s.reg r = .ok v0)
    (hsp : pyGet s.reg stack_pointer = .ok sp)
    (hram : pyIndex s.ram.length (sp - 1) = some m) :
    ∃ s1 s2, handle_PUSH r 0 0 s = ([], .ok s1) ∧ handle_POP r 0 0 s1 = ([], .ok s2) ∧
      pyGet s2.reg r = .ok v0 ∧ pyGet s2.reg stack_pointer = .ok sp := by
  obtain ⟨n, hidx, hval⟩ := pyGet_ok_index hr
  obtain ⟨hidx7, hlt7, hspval⟩ := reg_sp_index hsp
  have hnlt : n < s.reg.length := pyIndex_some_lt hidx
  have hA : pyGet (s.reg.set 7 (sp - 1)) stack_pointer = .ok (sp - 1) :=
    pyGet_set_same hidx7 (sp - 1)
  have hB : pyGet (s.ram.set m ((s.reg.set 7 (sp - 1)).getD n 0)) (sp - 1)
      = .ok ((s.reg.set 7 (sp - 1)).getD n 0) :=
    pyGet_set_same hram ((s.reg.set 7 (sp - 1)).getD n 0)
  have hC : pyIndex (s.reg.set 7 (sp - 1)).length r = some n := by
    rw [pyIndex_length_set]
    exact hidx
  have h2 : handle_POP r 0 0 { s with
        reg := s.reg.set 7 (sp - 1),
        ram := s.ram.set m ((s.reg.set 7 (sp - 1)).getD n 0) }
      = ([], .ok { s with
        ram := s.ram.set m ((s.reg.set 7 (sp - 1)).getD n 0),
        reg := ((s.reg.set 7 (sp - 1)).set n ((s.reg.set 7 (sp - 1)).getD n 0)).set 7
          (((s.reg.set 7 (sp - 1)).set n ((s.reg.set 7 (sp - 1)).getD n 0)).getD 7 0 + 1) }) :=
    handle_POP_eq 0 0 hA hB hC
  refine ⟨_, _, handle_PUSH_eq 0 0 hsp hidx hram, h2, ?_, ?_⟩
  · -- the register content is restored
    dsimp only
    have hidxr : pyIndex
        (((s.reg.set 7 (sp - 1)).set n ((s.reg.set 7 (sp - 1)).getD n 0)).set 7
          (((s.reg.set 7 (sp - 1)).set n ((s.reg.set 7 (sp - 1)).getD n 0)).getD 7 0 + 1)).length
        r = some n := by
      rw [pyIndex_length_set, pyIndex_length_set, pyIndex_length_set]
      exact hidx
    rw [pyGet_eq_of_index hidxr]
    by_cases hn : n = 7
    · subst hn
      rw [getD_set_eq (by rw [List.length_set, List.length_set]; omega)]
      rw [getD_set_eq (by rw [List.length_set]; omega),
        getD_set_eq (by omega)]
      have hv0 : v0 = sp := by rw [← hval, hspval]
      rw [hv0]
      norm_num
    · rw [getD_set_ne hn]
      rw [getD_set_eq (by rw [List.length_set]; omega)]
      rw [getD_set_ne (fun h => hn h)]
      rw [hval]
  · -- the stack pointer is restored
    dsimp only
    have hidxsp : pyIndex
        (((s.reg.set 7 (sp - 1)).set n ((s.reg.set 7 (sp - 1)).getD n 0)).set 7
          (((s.reg.set 7 (sp - 1)).set n ((s.reg.set 7 (sp - 1)).getD n 0)).getD 7 0 + 1)).length
        stack_pointer = some 7 := by
      rw [pyIndex_length_set, pyIndex_length_set, pyIndex_length_set]
      exact hidx7
    rw [pyGet_eq_of_index hidxsp]
    rw [getD_set_eq (by rw [List.length_set, List.length_set]; omega)]
    have hmid : ((s.reg.set 7 (sp - 1)).set n ((s.reg.set 7 (sp - 1)).getD n 0)).getD 7 0
        = sp - 1 := by
      by_cases hn : n = 7
      · subst hn
        rw [getD_set_eq (by rw [List.length_set]; omega)]
        rw [getD_set_eq (by omega)]
      · rw [getD_set_ne (fun h => hn h.symm)]
        rw [getD_set_eq (by omega)]
    rw [hmid]
    norm_num

/-- C7: CALL pushes `pc + 2` (the address just after the two-byte CALL) and
RET pops it back into the program counter. -/
theorem C7_call_ret_roundtrip {r sp : Int} {n m : Nat} {s : CPUState}
    (hx : pyIndex s.reg.length r = some n)
    (hsp : pyGet s.reg stack_pointer = .ok sp)
    (hram : pyIndex s.ram.length (sp - 1) = some m) :
    ∃ s1 s2, handle_CALL r 0 0 s = ([], .ok s1) ∧ handle_RET 0 0 0 s1 = ([], .ok s2) ∧
      s2.pc = s.pc + inst_len CALL := by
  obtain ⟨hidx7, hlt7, hspval⟩ := reg_sp_index hsp
  have hA : pyGet (s.reg.set 7 (sp - 1)) stack_pointer = .ok (sp - 1) :=
    pyGet_set_same hidx7 (sp - 1)
  have hB : pyGet (s.ram.set m (s.pc + 2)) (sp - 1) = .ok (s.pc + 2) :=
    pyGet_set_same hram (s.pc + 2)
  have h2 : handle_RET 0 0 0 { s with
        ram := s.ram.set m (s.pc + 2),
        reg := s.reg.set 7 (sp - 1),
        pc := (s.reg.set 7 (sp - 1)).getD n 0 }
      = ([], .ok { s with
        ram := s.ram.set m (s.pc + 2),
        reg := ((s.reg.set 7 (sp - 1)).set 0 (s.pc + 2)).set 7
          (((s.reg.set 7 (sp - 1)).set 0 (s.pc + 2)).getD 7 0 + 1),
        pc := s.pc + 2 }) :=
    handle_RET_eq 0 0 0 hA hB
  exact ⟨_, _, handle_CALL_eq 0 0 hsp hx hram, h2, rfl⟩

/-- C9: RET pops the word at the top of the stack into register 0 and makes
it the new program counter, so after a RET register 0 always equals the
program counter. -/
theorem C9_ret_writes_r0 {sp v x o2 o3 : Int} {s : CPUState}
    (hsp : pyGet s.reg stack_pointer = .ok sp)
    (hv : pyGet s.ram sp = .ok v) :
    ∃ t, handle_RET x o2 o3 s = ([], .ok t) ∧ t.pc = v ∧ pyGet t.reg 0 = .ok v := by
  obtain ⟨hidx7, hlt7, -⟩ := reg_sp_index hsp
  refine ⟨_, handle_RET_eq x o2 o3 hsp hv, rfl, ?_⟩
  have hidx0 : pyIndex s.reg.length 0 = some 0 := by
    rw [pyIndex_nonneg (by decide) (by omega)]
    rfl
  have hidx0b : pyIndex
      ((s.reg.set 0 v).set 7 ((s.reg.set 0 v).getD 7 0 + 1)).length (0 : Int) = some 0 := by
    rw [pyIndex_length_set, pyIndex_length_set]
    exact hidx0
  rw [pyGet_eq_of_index hidx0b]
  rw [getD_set_ne (by decide) ((s.reg.set 0 v).getD 7 0 + 1),
    getD_set_eq (by omega) v]

/-- A concrete state for the C6 witness. -/
def W6 : CPUState :=
  { ram := [0, 0, 0, 0, 0], reg := [9, 0, 0, 0, 0, 0, 0, 4],
    flags := [0, 0, 0, 0, 0, 0, 0, 0], pc := 0, running := true }

/-- Witness for C6: push then pop register 0 holding 9, stack pointer 4. -/
theorem C6_push_pop_roundtrip_witness :
    ∃ s1 s2, handle_PUSH 0 0 0 W6 = ([], .ok s1) ∧ handle_POP 0 0 0 s1 = ([], .ok s2) ∧
      pyGet s2.reg 0 = .ok 9 ∧ pyGet s2.reg stack_pointer = .ok 4 :=
  C6_push_pop_roundtrip (show pyGet W6.reg 0 = .ok 9 by rfl)
    (show pyGet W6.reg stack_pointer = .ok 4 by rfl)
    (show pyIndex W6.ram.length (4 - 1) = some 3 by rfl)

/-- A concrete state for the C7 witness. -/
def W7 : CPUState :=
  { ram := [0, 0, 0, 0, 0], reg := [6, 0, 0, 0, 0, 0, 0, 4],
    flags := [0, 0, 0, 0, 0, 0, 0, 0], pc := 10, running := true }

/-- Witness for C7: CALL through register 0 from pc 10, then RET. -/
theorem C7_call_ret_roundtrip_witness :
    ∃ s1 s2, handle_CALL 0 0 0 W7 = ([], .ok s1) ∧ handle_RET 0 0 0 s1 = ([], .ok s2) ∧
      s2.pc = W7.pc + inst_len CALL :=
  C7_call_ret_roundtrip (show pyIndex W7.reg.length 0 = some 0 by rfl)
    (show pyGet W7.reg stack_pointer = .ok 4 by rfl)
    (show pyIndex W7.ram.length (4 - 1) = some 3 by rfl)

/-- A concrete state for the C9 witness. -/
def W9 : CPUState :=
  { ram := [42, 0], reg := [0, 0, 0, 0, 0, 0, 0, 0],
    flags := [0, 0, 0, 0, 0, 0, 0, 0], pc := 0, running := true }

/-- Witness for C9: RET with return address 42 on top of the stack. -/
theorem C9_ret_writes_r0_witness :
    ∃ t, handle_RET 0 0 0 W9 = ([], .ok t) ∧ t.pc = 42 ∧ pyGet t.reg 0 = .ok 42 :=
  C9_ret_writes_r0 (show pyGet W9.reg stack_pointer = .ok 0 by rfl)
    (show pyGet W9.ram 0 = .ok 42 by rfl)

/-- C4: MOD with a zero divisor prints the fixed divide-by-zero diagnostic
and raises SystemExit, terminating execution with the registers untouched;
with a nonzero divisor it stores `reg[a] % reg[b]` into `reg[a]` and returns
normally so that execution continues. -/
theorem C4_mod_by_zero {a b vb : Int} {s : CPUState} (c : Int)
    (hb : pyGet s.reg b = .ok vb) :
    (vb = 0 → handle_MOD a b c s = (["Error: Divide by Zero"], .error .systemExit)) ∧
    (vb ≠ 0 → ∀ va, pyGet s.reg a = .ok va →
      ∃ r, pySet s.reg a (Int.fmod va vb) = .ok r ∧
        handle_MOD a b c s = ([], .ok { s with reg := r })) := by
  constructor
  · intro h0
    subst h0
    unfold handle_MOD
    rw [alu_MOD_def, hb]
    dsimp only
    rw [if_pos rfl]
  · intro hne va ha
    obtain ⟨n, hn, -⟩ := pyGet_ok_index ha
    refine ⟨s.reg.set n (Int.fmod va vb), pySet_eq_of_index hn (Int.fmod va vb), ?_⟩
    unfold handle_MOD
    rw [alu_MOD_def, hb]
    dsimp only
    rw [if_neg hne, ha]
    dsimp only
    unfold writeReg
    rw [pySet_eq_of_index hn (Int.fmod va vb)]

/-- A concrete state for the C4 witness: `MOD R0, R1` with `reg[1] = 0`. -/
def W4 : CPUState :=
  { ram := [ MOD, 0, 1, 0], reg := [5, 0, 0, 0, 0, 0, 0, 0xF4],
    flags := [0, 0, 0, 0, 0, 0, 0, 0], pc := 0, running := true }

/-- Witness for C4: dividing register 0 by the zero in register 1. -/
theorem C4_mod_by_zero_witness :
    ((0 : Int) = 0 → handle_MOD 0 1 0 W4 = (["Error: Divide by Zero"], .error .systemExit)) ∧
    ((0 : Int) ≠ 0 → ∀ va, pyGet W4.reg 0 = .ok va →
      ∃ r, pySet W4.reg 0 (Int.fmod va 0) = .ok r ∧
        handle_MOD 0 1 0 W4 = ([], .ok { W4 with reg := r })) :=
  C4_mod_by_zero 0 (show pyGet W4.reg 1 = .ok 0 by rfl)

/-- C5: when the fetched opcode has no branch-table entry, the loop prints
the diagnostic naming the opcode in binary and the process exits: the run
ends in `.exited` no matter how much fuel remains, so no further
instruction executes. -/
theorem C5_unknown_opcode {s : CPUState} {IR oa ob oc : Int} (fuel : Nat) (out : List String)
    (hrun : s.running = true)
    (hIR : pyGet s.ram s.pc = .ok IR)
    (hops : fetchOperands s = .ok (oa, ob, oc))
    (hnone : branchtable IR = none) :
    run (fuel + 1) s out = .exited (out ++ ["Invalid instruction " ++ pyBin IR]) := by
  have hs : step s = .exitInvalid ["Invalid instruction " ++ pyBin IR] := by
    rw [step_eq_of_fetch hIR hops, hnone]
  unfold run
  rw [hrun, hs]
  rw [if_pos rfl]

/-- A concrete state for the C5 witness: opcode `0b10` has no handler. -/
def W5 : CPUState :=
  { ram := [2, 0, 0, 0], reg := [0, 0, 0, 0, 0, 0, 0, 0xF4],
    flags := [0, 0, 0, 0, 0, 0, 0, 0], pc := 0, running := true }

/-- Witness for C5 at opcode byte 2 (printed as `0b10`). -/
theorem C5_unknown_opcode_witness :
    run 1 W5 [] = .exited ([] ++ ["Invalid instruction " ++ pyBin 2]) :=
  C5_unknown_opcode 0 [] (by rfl) (by rfl) (by rfl) (by rfl)

/-- A concrete state for C10: `LDI 200, 5` — the opcode is registered but
operand 200 is not a valid register index. -/
def W10 : CPUState :=
  { ram := [LDI, 200, 5, 0], reg := [0, 0, 0, 0, 0, 0, 0, 0xF4],
    flags := [0, 0, 0, 0, 0, 0, 0, 0], pc := 0, running := true }

/-- C10: a registered opcode whose handler raises (here LDI writing to
register index 200, an IndexError) is caught by the dispatch site's bare
`except` and reported as an invalid instruction, and the process exits. -/
theorem C10_known_opcode_exits :
    (branchtable LDI).isSome = true ∧
    handle_LDI 200 5 0 W10 = ([], .error .indexError) ∧
    run 1 W10 [] = .exited ["Invalid instruction " ++ pyBin LDI] :=
  ⟨rfl, rfl, rfl⟩

/-- A concrete state for the C2 counterexample: a stale less-than flag. -/
def X2 : CPUState :=
  { ram := [0, 0, 0, 0], reg := [0, 0, 0, 0, 0, 0, 0, 0],
    flags := [0, 0, 0, 0, 0, 1, 0, 0], pc := 0, running := true }

/-- Counterexample to C2 as stated: CMP(0,0) on a state whose less-than
flag is still set from before leaves BOTH the less-than and the equal flag
set — not exactly one. -/
theorem C2_cmp_counterexample :
    ∃ t, handle_CMP 0 0 0 X2 = ([], .ok t) ∧
      pyGet t.flags flag_lt = .ok 1 ∧ pyGet t.flags flag_equal = .ok 1 :=
  ⟨{ X2 with flags := [0, 0, 0, 0, 0, 1, 0, 1] }, rfl, rfl, rfl⟩

/-- C2 amended: CMP sets the one flag selected by the ordering of `reg[a]`
and `reg[b]` and leaves the other two flag slots unchanged; it never clears
stale flags, so exactly one comparison flag is set afterwards only when the
other two were already clear, and CMP(a,a) always sets the equal flag. -/
theorem C2_cmp_sets_matching_flag {a b va vb : Int} {s : CPUState} (c : Int)
    (ha : pyGet s.reg a = .ok va) (hb : pyGet s.reg b = .ok vb)
    (hlen : 7 < s.flags.length) :
    (va = vb → handle_CMP a b c s = ([], .ok { s with flags := s.flags.set 7 1 })) ∧
    (va < vb → handle_CMP a b c s = ([], .ok { s with flags := s.flags.set 5 1 })) ∧
    (vb < va → handle_CMP a b c s = ([], .ok { s with flags := s.flags.set 6 1 })) := by
  have hidx5 : pyIndex s.flags.length flag_lt = some 5 := by
    rw [flag_lt, pyIndex_nonneg (by decide) (by omega)]
    rfl
  have hidx6 : pyIndex s.flags.length flag_gt = some 6 := by
    rw [flag_gt, pyIndex_nonneg (by decide) (by omega)]
    rfl
  have hidx7 : pyIndex s.flags.length flag_equal = some 7 := by
    rw [flag_equal, pyIndex_nonneg (by decide) (by omega)]
    rfl
  refine ⟨?_, ?_, ?_⟩
  · intro h
    unfold handle_CMP
    rw [alu_CMP_def, ha, hb]
    dsimp only
    rw [if_pos h]
    unfold writeFlag
    rw [pySet_eq_of_index hidx7]
  · intro h
    unfold handle_CMP
    rw [alu_CMP_def, ha, hb]
    dsimp only
    rw [if_neg (by omega), if_pos h]
    unfold writeFlag
    rw [pySet_eq_of_index hidx5]
  · intro h
    unfold handle_CMP
    rw [alu_CMP_def, ha, hb]
    dsimp only
    rw [if_neg (by omega), if_neg (by omega), if_pos h]
    unfold writeFlag
    rw [pySet_eq_of_index hidx6]

/-- A concrete state for the C2 witness: `reg[0] = 3`, `reg[1] = 4`. -/
def W2 : CPUState :=
  { ram := [0, 0, 0, 0], reg := [3, 4, 0, 0, 0, 0, 0, 0],
    flags := [0, 0, 0, 0, 0, 0, 0, 0], pc := 0, running := true }

/-- Witness for the amended C2 at CMP(0,1) with 3 < 4. -/
theorem C2_cmp_sets_matching_flag_witness :
    ((3 : Int) = 4 → handle_CMP 0 1 0 W2 = ([], .ok { W2 with flags := W2.flags.set 7 1 })) ∧
    ((3 : Int) < 4 → handle_CMP 0 1 0 W2 = ([], .ok { W2 with flags := W2.flags.set 5 1 })) ∧
    ((4 : Int) < 3 → handle_CMP 0 1 0 W2 = ([], .ok { W2 with flags := W2.flags.set 6 1 })) :=
  C2_cmp_sets_matching_flag 0 (show pyGet W2.reg 0 = .ok 3 by rfl)
    (show pyGet W2.reg 1 = .ok 4 by rfl) (by decide)

/-- A concrete state for the C3 counterexample: `reg[0] = reg[1] = 200`. -/
def X3 : CPUState :=
  { ram := [0, 0, 0, 0], reg := [200, 200, 0, 0, 0, 0, 0, 0],
    flags := [0, 0, 0, 0, 0, 0, 0, 0], pc := 0, running := true }

/-- Counterexample to C3 as stated: ADD of 200 and 200 stores 400 — the
result is not wrapped modulo 256, so a register escapes 0..255. -/
theorem C3_no_wrap_counterexample :
    ∃ t, handle_ADD 0 1 0 X3 = ([], .ok t) ∧ pyGet t.reg 0 = .ok 400 ∧
      ¬(400 : Int) ≤ 255 :=
  ⟨{ X3 with reg := [400, 200, 0, 0, 0, 0, 0, 0] }, rfl, rfl, by decide⟩

/-- C3 amended: no ALU result is truncated to 8 bits.  ADD and MUL store
the exact sum and product, ADDI the exact `reg[src] + immediate`, MOD the
exact Python modulus, and the bitwise group combines `reg[a]` with itself
(NOT takes the exact two's-complement negation, SHL and SHR shift by the
register's own value) — all written back untruncated. -/
theorem C3_alu_results_exact {a b va vb : Int} {n : Nat} {s : CPUState} (c : Int)
    (ha : pyGet s.reg a = .ok va) (hb : pyGet s.reg b = .ok vb)
    (hn : pyIndex s.reg.length a = some n) :
    handle_ADD a b c s = ([], .ok { s with reg := s.reg.set n (va + vb) }) ∧
    handle_MUL a b c s = ([], .ok { s with reg := s.reg.set n (va * vb) }) ∧
    handle_ADDI a b c s = ([], .ok { s with reg := s.reg.set n (vb + c) }) ∧
    (vb ≠ 0 → handle_MOD a b c s = ([], .ok { s with reg := s.reg.set n (Int.fmod va vb) })) ∧
    handle_AND a b c s = ([], .ok { s with reg := s.reg.set n (Int.land va va) }) ∧
    handle_OR a b c s = ([], .ok { s with reg := s.reg.set n (Int.lor va va) }) ∧
    handle_XOR a b c s = ([], .ok { s with reg := s.reg.set n (Int.xor va va) }) ∧
    handle_NOT a b c s = ([], .ok { s with reg := s.reg.set n (~~~va) }) ∧
    (0 ≤ va → handle_SHL a b c s = ([], .ok { s with reg := s.reg.set n (va * 2 ^ va.toNat) })) ∧
    (0 ≤ va → handle_SHR a b c s
      = ([], .ok { s with reg := s.reg.set n (Int.fdiv va (2 ^ va.toNat)) })) := by
  refine ⟨?_, ?_, ?_, ?_, ?_, ?_, ?_, ?_, ?_, ?_⟩
  · unfold handle_ADD
    rw [alu_ADD_def, ha, hb]
    dsimp only
    unfold writeReg
    rw [pySet_eq_of_index hn]
  · unfold handle_MUL
    rw [alu_MUL_def, ha, hb]
    dsimp only
    unfold writeReg
    rw [pySet_eq_of_index hn]
  · unfold handle_ADDI
    rw [hb]
    dsimp only
    unfold writeReg
    rw [pySet_eq_of_index hn]
  · intro hvb
    unfold handle_MOD
    rw [alu_MOD_def, hb]
    dsimp only
    rw [if_neg hvb, ha]
    dsimp only
    unfold writeReg
    rw [pySet_eq_of_index hn]
  · unfold handle_AND
    rw [alu_AND_def, ha]
    dsimp only
    unfold writeReg
    rw [pySet_eq_of_index hn]
  · unfold handle_OR
    rw [alu_OR_def, ha]
    dsimp only
    unfold writeReg
    rw [pySet_eq_of_index hn]
  · unfold handle_XOR
    rw [alu_XOR_def, ha]
    dsimp only
    unfold writeReg
    rw [pySet_eq_of_index hn]
  · unfold handle_NOT
    rw [alu_NOT_def, ha]
    dsimp only
    unfold writeReg
    rw [pySet_eq_of_index hn]
  · intro hva
    unfold handle_SHL
    rw [alu_SHL_def, ha]
    dsimp only
    rw [if_neg (by omega)]
    unfold writeReg
    rw [pySet_eq_of_index hn]
  · intro hva
    unfold handle_SHR
    rw [alu_SHR_def, ha]
    dsimp only
    rw [if_neg (by omega)]
    unfold writeReg
    rw [pySet_eq_of_index hn]

/-- Witness for the amended C3 on `X3` (both operand registers hold 200). -/
theorem C3_alu_results_exact_witness :
    handle_ADD 0 1 7 X3 = ([], .ok { X3 with reg := X3.reg.set 0 (200 + 200) }) ∧
    handle_MUL 0 1 7 X3 = ([], .ok { X3 with reg := X3.reg.set 0 (200 * 200) }) ∧
    handle_ADDI 0 1 7 X3 = ([], .ok { X3 with reg := X3.reg.set 0 (200 + 7) }) ∧
    ((200 : Int) ≠ 0 → handle_MOD 0 1 7 X3
      = ([], .ok { X3 with reg := X3.reg.set 0 (Int.fmod 200 200) })) ∧
    handle_AND 0 1 7 X3 = ([], .ok { X3 with reg := X3.reg.set 0 (Int.land 200 200) }) ∧
    handle_OR 0 1 7 X3 = ([], .ok { X3 with reg := X3.reg.set 0 (Int.lor 200 200) }) ∧
    handle_XOR 0 1 7 X3 = ([], .ok { X3 with reg := X3.reg.set 0 (Int.xor 200 200) }) ∧
    handle_NOT 0 1 7 X3 = ([], .ok { X3 with reg := X3.reg.set 0 (~~~(200 : Int)) }) ∧
    ((0 : Int) ≤ 200 → handle_SHL 0 1 7 X3
      = ([], .ok { X3 with reg := X3.reg.set 0 (200 * 2 ^ (200 : Int).toNat) })) ∧
    ((0 : Int) ≤ 200 → handle_SHR 0 1 7 X3
      = ([], .ok { X3 with reg := X3.reg.set 0 (Int.fdiv 200 (2 ^ (200 : Int).toNat)) })) :=
  C3_alu_results_exact 7 (show pyGet X3.reg 0 = .ok 200 by rfl)
    (show pyGet X3.reg 1 = .ok 200 by rfl)
    (show pyIndex X3.reg.length 0 = some 0 by rfl)

/-- A change at an index other than a read's resolved index leaves the read
unchanged. -/
theorem pyGet_set_of_ne_index {l : List Int} {i : Int} {n : Nat} (v : Int)
    (h : pyIndex l.length i ≠ some n) :
    pyGet (l.set n v) i = pyGet l i := by
  cases hx : pyIndex l.length i with
  | none =>
    unfold pyGet
    rw [pyIndex_length_set, hx]
  | some m =>
    have hm : m ≠ n := fun he => h (hx.trans (congrArg some he))
    unfold pyGet
    rw [pyIndex_length_set, hx]
    dsimp only
    rw [getD_set_ne hm]

/-- A concrete state for C8: an ADDI instruction, whose immediate is the
byte at `pc + 3`. -/
def X8 : CPUState :=
  { ram := [ ADDI, 0, 1, 9], reg := [0, 5, 0, 0, 0, 0, 0, 0xF4],
    flags := [0, 0, 0, 0, 0, 0, 0, 0], pc := 0, running := true }

/-- Counterexample to C8 as stated: the fetch also reads the byte at
`pc + 3` (`operand_c`), and ADDI consumes it — two states that differ only
at address `pc + 3` take different steps. -/
theorem C8_reads_pc3_counterexample :
    fetchOperands X8 = .ok (0, 1, 9) ∧
    step X8 ≠ step { X8 with ram := X8.ram.set 3 42 } :=
  ⟨rfl, by decide⟩

/-- C8 amended: each cycle the fetch reads the opcode byte at `pc` and
exactly three operand bytes, at `pc + 1`, `pc + 2` and `pc + 3` (the third
is handed to the handler and used by ADDI); changing any memory cell other
than those three operand cells leaves the fetched operand triple unchanged,
so the fetch never reads a byte beyond `pc + 3`. -/
theorem C8_fetch_reads_three {s : CPUState} {n : Nat} (v : Int)
    (h1 : pyIndex s.ram.length (s.pc + 1) ≠ some n)
    (h2 : pyIndex s.ram.length (s.pc + 2) ≠ some n)
    (h3 : pyIndex s.ram.length (s.pc + 3) ≠ some n) :
    fetchOperands { s with ram := s.ram.set n v } = fetchOperands s := by
  unfold fetchOperands
  dsimp only
  rw [pyGet_set_of_ne_index v h1, pyGet_set_of_ne_index v h2, pyGet_set_of_ne_index v h3]

/-- Witness for the amended C8: rewriting the out-of-range cell 100 leaves
the fetch on `X2` unchanged. -/
theorem C8_fetch_reads_three_witness :
    fetchOperands { X2 with ram := X2.ram.set 100 9 } = fetchOperands X2 :=
  C8_fetch_reads_three 9 (by decide) (by decide) (by decide)

end LS8
